import Mathlib

/-
Verification development for the FindShop AI catalog-matching core.

This file shallowly embeds the scoring, retrieval and recommendation code of
the repository (backend/ai_scoring/quality_scorer.py, backend/database/
product_db.py, backend/ai/recommendations.py) as Lean definitions and proves
or refutes the frozen claims about them.

Modelling conventions:
* Python floats are modelled as exact rationals (ℚ); where the code takes
  square roots (numpy vector norms) the values live in ℝ via Real.sqrt.
* Python dicts appearing as inputs (product spec mappings) are modelled as
  association lists in insertion order with distinct keys; `get`, `in` and
  `values()` are modelled by the corresponding list operations.
* Python `round` (banker's rounding, round-half-to-even) is modelled exactly
  on ℚ and on ℝ.
* Regular-expression extraction uses only patterns of the shape
  digits `\s*` literal-suffix, for which leftmost search with greedy digit
  runs is implemented directly on character lists.
-/

namespace FindShop

/-! ### Python string and dict primitives -/

/-- Association-list model of a Python dict from attribute name to free-text
value, in insertion order. -/
abbrev Specs := List (String × String)

/-- `specs.get(key, dflt)`. -/
def sGet (specs : Specs) (key : String) (dflt : String) : String :=
  match specs.find? (fun p => p.1 = key) with
  | some p => p.2
  | none => dflt

/-- `key in specs`. -/
def sHasKey (specs : Specs) (key : String) : Bool :=
  specs.any (fun p => p.1 = key)

/-- `str.lower()` (ASCII model). -/
def pyLower (s : String) : String := String.mk (s.data.map Char.toLower)

/-- Python regex `\s` class (ASCII model). -/
def pySpace (c : Char) : Bool :=
  c = ' ' || c = '\t' || c = '\n' || c = '\r' || c = '\x0b' || c = '\x0c'

/-- Substring occurrence test on character lists (Python `needle in hay`). -/
def listIsInfix (needle : List Char) : List Char → Bool
  | [] => needle.isEmpty
  | c :: t => needle.isPrefixOf (c :: t) || listIsInfix needle t

/-- Python `needle in hay` on strings. -/
def strContains (hay needle : String) : Bool := listIsInfix needle.data hay.data

/-- `' '.join(l)`. -/
def joinSpace : List String → String
  | [] => ""
  | [s] => s
  | s :: t :: r => s ++ " " ++ joinSpace (t :: r)

/-- Decimal digit run to a natural number (`float(match.group(1))`, which is
an exact nonnegative integer for a digit-group match). -/
def natOfDigits (ds : List Char) : ℕ :=
  ds.foldl (fun n c => 10 * n + (c.toNat - '0'.toNat)) 0

/-- Attempt to match the pattern `(\d+)\s*suffix` at the head of `s`: a
maximal digit run, optional whitespace, then the literal suffix.  (For the
patterns used by the scorer, regex backtracking cannot produce any other
match at a position, since the suffixes start with letters.) -/
def patMatchAt (suffix : List Char) (s : List Char) : Option ℕ :=
  match s with
  | [] => none
  | c :: _ =>
    if c.isDigit then
      let ds := s.takeWhile Char.isDigit
      let rest := (s.dropWhile Char.isDigit).dropWhile pySpace
      if suffix.isPrefixOf rest then some (natOfDigits ds) else none
    else none

/-- `re.search` for a pattern `(\d+)\s*suffix`: leftmost matching position. -/
def patSearch (suffix : List Char) : List Char → Option ℕ
  | [] => none
  | c :: t =>
    match patMatchAt suffix (c :: t) with
    | some n => some n
    | none => patSearch suffix t

/-- Inner loop of `QualityScorer._extract_numeric_value`: first pattern that
matches anywhere wins; a value is scaled by 1000 whenever the lowered text
contains "khz" (the kHz→Hz conversion applies to any pattern). -/
def extractLoop (t : List Char) : List (List Char) → Option ℕ
  | [] => none
  | p :: ps =>
    match patSearch p t with
    | some n => some (if listIsInfix "khz".data t then n * 1000 else n)
    | none => extractLoop t ps

/-- `QualityScorer._extract_numeric_value(text, patterns)`.  Empty text is
falsy and yields `None`; otherwise the text is lowered and the patterns are
tried in order. -/
def extract_numeric (text : String) (patterns : List (List Char)) : Option ℕ :=
  if text = "" then none else extractLoop (pyLower text).data patterns

/-! ### Spec normalizers (`QualityScorer._normalize_*_specs`) -/

/-- Normalized Feature Set: feature name → numeric value, insertion order. -/
abbrev NFeatures := List (String × ℚ)

/-- Generic association-list lookup (Python dict `get` / `[]`). -/
def alookup {α : Type} (tbl : List (String × α)) (k : String) : Option α :=
  (tbl.find? (fun p => p.1 = k)).map Prod.snd

/-- Record an extracted value under `name` only when extraction succeeded and
the value is truthy (Python `if extracted:` treats `None` and `0.0` alike). -/
def addIfPos (name : String) (v : Option ℕ) (l : NFeatures) : NFeatures :=
  match v with
  | some n => if n ≠ 0 then l ++ [(name, (n : ℚ))] else l
  | none => l

/-- `' '.join(str(v).lower() for v in specs.values())`. -/
def specsText (specs : Specs) : String :=
  joinSpace (specs.map (fun p => pyLower p.2))

/-- `any(keyword in text for keyword in kws)`. -/
def anyKeyword (text : String) (kws : List String) : Bool :=
  kws.any (fun k => strContains text k)

/-- `QualityScorer._normalize_headphones_specs`. -/
def normalizeHeadphones (specs : Specs) : NFeatures :=
  let st := specsText specs
  let n1 : NFeatures :=
    if sHasKey specs "battery_life" || sHasKey specs "Battery Life" then
      addIfPos "battery_life"
        (extract_numeric (sGet specs "battery_life" (sGet specs "Battery Life" ""))
          ["h".toList]) []
    else []
  let n2 : NFeatures :=
    if sHasKey specs "driver_size" || sHasKey specs "Driver Size" then
      addIfPos "driver_size"
        (extract_numeric (sGet specs "driver_size" (sGet specs "Driver Size" ""))
          ["mm".toList]) n1
    else n1
  let n3 := n2 ++ [("noise_cancellation",
    if anyKeyword st ["noise cancellation", "anc", "active noise"] then (1 : ℚ) else 0)]
  let bq : ℚ :=
    if anyKeyword st ["metal", "aluminum", "premium", "steel"] then 5
    else if anyKeyword st ["plastic", "basic"] then 2
    else 3
  let n4 := n3 ++ [("build_quality", bq)]
  addIfPos "frequency_response"
    (extract_numeric (sGet specs "frequency_response" (sGet specs "Frequency Response" ""))
      ["hz".toList, "khz".toList]) n4

/-- `QualityScorer._normalize_trimmer_specs`. -/
def normalizeTrimmer (specs : Specs) : NFeatures :=
  let st := specsText specs
  let n1 := addIfPos "runtime"
    (extract_numeric (sGet specs "runtime" (sGet specs "Battery Life" "")) ["min".toList]) []
  let bq : ℚ :=
    if strContains st "stainless steel" || strContains st "titanium" then 5
    else if strContains st "steel" then 4
    else if strContains st "ceramic" then 4
    else 3
  let n2 := n1 ++ [("blade_material", bq)]
  let n3 := n2 ++ [("waterproof",
    if anyKeyword st ["waterproof", "water resistant", "ipx"] then (1 : ℚ) else 0)]
  addIfPos "attachments"
    (extract_numeric (sGet specs "attachments" (sGet specs "Accessories" ""))
      [List.nil]) n3

/-- `QualityScorer._normalize_mixer_specs`. -/
def normalizeMixer (specs : Specs) : NFeatures :=
  let n1 := addIfPos "power_output"
    (extract_numeric (sGet specs "power" (sGet specs "Power" "")) ["w".toList]) []
  let n2 := addIfPos "jar_count"
    (extract_numeric (sGet specs "jars" (sGet specs "Jars" "")) [List.nil]) n1
  addIfPos "speed_settings"
    (extract_numeric (sGet specs "speeds" (sGet specs "Speed Settings" "")) [List.nil]) n2

/-- `QualityScorer._normalize_smartphone_specs`. -/
def normalizeSmartphone (specs : Specs) : NFeatures :=
  let n1 := addIfPos "camera"
    (extract_numeric (sGet specs "camera" (sGet specs "Camera" "")) ["mp".toList]) []
  let n2 := addIfPos "battery"
    (extract_numeric (sGet specs "battery" (sGet specs "Battery" "")) ["mah".toList]) n1
  addIfPos "ram"
    (extract_numeric (sGet specs "ram" (sGet specs "RAM" "")) ["gb".toList]) n2

/-- `QualityScorer._normalize_laptop_specs` (the source returns `{}`). -/
def normalizeLaptop (_specs : Specs) : NFeatures := []

/-- `QualityScorer._normalize_clothing_specs`. -/
def normalizeClothing (specs : Specs) : NFeatures :=
  let st := specsText specs
  let q : ℚ :=
    if anyKeyword st ["cotton", "silk", "wool", "linen", "organic"] then 5
    else if anyKeyword st ["polyester", "synthetic", "blend"] then 2
    else 3
  [("material", q)]

/-- `QualityScorer._normalize_general_specs`.  (`features` is `len(specs)`;
the dict model assumes distinct keys.) -/
def normalizeGeneral (specs : Specs) : NFeatures :=
  [("quality", 3), ("features", (specs.length : ℚ)), ("durability", 3), ("value", 3)]

/-- `QualityScorer._normalize_specs`: per-category dispatch. -/
def normalizeSpecs (specs : Specs) (category : String) : NFeatures :=
  if category = "headphones" then normalizeHeadphones specs
  else if category = "trimmer" then normalizeTrimmer specs
  else if category = "mixer" then normalizeMixer specs
  else if category = "smartphone" then normalizeSmartphone specs
  else if category = "laptop" then normalizeLaptop specs
  else if category = "clothing" then normalizeClothing specs
  else normalizeGeneral specs

/-! ### Scorecards, reference values and the quality score -/

/-- `QualityScorer.category_scorecards` (default instance). -/
def categoryScorecards : List (String × List (String × ℚ)) :=
  [("headphones",
     [("battery_life", 30), ("driver_size", 25), ("noise_cancellation", 20),
      ("build_quality", 15), ("frequency_response", 10)]),
   ("trimmer",
     [("runtime", 30), ("blade_material", 25), ("waterproof", 20),
      ("attachments", 15), ("charging_time", 10)]),
   ("mixer",
     [("power_output", 30), ("jar_count", 25), ("speed_settings", 20),
      ("warranty", 15), ("safety_features", 10)]),
   ("smartphone",
     [("camera", 25), ("battery", 25), ("processor", 20), ("ram", 15), ("storage", 15)]),
   ("laptop",
     [("processor", 30), ("ram", 25), ("storage", 20), ("display", 15), ("battery", 10)]),
   ("clothing",
     [("material", 30), ("fit", 25), ("durability", 20), ("comfort", 15), ("design", 10)]),
   ("general",
     [("quality", 40), ("features", 30), ("durability", 20), ("value", 10)])]

/-- `QualityScorer.reference_values` (only four categories have entries). -/
def referenceValues : List (String × List (String × ℚ)) :=
  [("headphones",
     [("battery_life", 40), ("driver_size", 50), ("noise_cancellation", 1),
      ("build_quality", 5), ("frequency_response", 40000)]),
   ("trimmer",
     [("runtime", 120), ("blade_material", 5), ("waterproof", 1),
      ("attachments", 10), ("charging_time", 8)]),
   ("mixer",
     [("power_output", 1000), ("jar_count", 5), ("speed_settings", 10),
      ("warranty", 5), ("safety_features", 5)]),
   ("smartphone",
     [("camera", 108), ("battery", 5000), ("processor", 5), ("ram", 12), ("storage", 256)])]

/-- `if category not in self.category_scorecards: category = 'general'`. -/
def resolveCategory (c : String) : String :=
  if (alookup categoryScorecards c).isSome then c else "general"

/-- Resolved scorecard. -/
def getScorecard (c : String) : List (String × ℚ) :=
  (alookup categoryScorecards c).getD []

/-- `self.reference_values.get(category, {})`. -/
def getRefTable (c : String) : List (String × ℚ) :=
  (alookup referenceValues c).getD []

/-- Per-feature loop body of `calculate_quality_score`: value present
⇒ `max_points * min(value/reference, 1)` (inverted for `charging_time`);
absent ⇒ `max_points * 0.6`. -/
def featurePoints (normalized : NFeatures) (refs : List (String × ℚ))
    (feature : String) (w : ℚ) : ℚ :=
  match alookup normalized feature with
  | some v =>
    let r := (alookup refs feature).getD 1
    if feature = "charging_time" then w * (1 - min (v / r) 1)
    else w * min (v / r) 1
  | none => w * 0.6

/-- `QualityScorer.calculate_quality_score(product_specs, category)`. -/
def calculate_quality_score (product_specs : Specs) (category : String) : ℚ :=
  let cat := resolveCategory category
  let scorecard := getScorecard cat
  let refs := getRefTable cat
  let normalized := normalizeSpecs product_specs cat
  let maxPossible := (scorecard.map Prod.snd).sum
  let total := (scorecard.map (fun p => featurePoints normalized refs p.1 p.2)).sum
  let q := total / maxPossible * 100
  max 0 (min 100 q)

/-! ### Python rounding and the final score -/

/-- Python `round` to an integer: round half to even. -/
def roundHalfEven {α : Type} [LinearOrderedField α] [FloorRing α] (x : α) : ℤ :=
  let f := ⌊x⌋
  if x - f < 1 / 2 then f
  else if 1 / 2 < x - f then f + 1
  else if Even f then f else f + 1

/-- Python `round(x, ndigits)` on the exact float model. -/
def pyRound {α : Type} [LinearOrderedField α] [FloorRing α] (x : α) (ndigits : ℕ) : α :=
  (roundHalfEven (x * 10 ^ ndigits) : α) / 10 ^ ndigits

/-- `QualityScorer.calculate_final_score(quality_score, rating)`. -/
def calculate_final_score (quality_score rating : ℚ) : ℚ :=
  pyRound (quality_score * (rating / 5)) 2

/-! ### Spec-side restatement of the scoring algorithm (for refinement) -/

/-- `clamp(x, 0, 1)` as written in the spec. -/
def clamp01 (x : ℚ) : ℚ := max 0 (min x 1)

/-- Spec-side per-feature rule, following the spec's words: present features
score `weight * clamp(value/reference, 0, 1)` (with the lower-is-better
inversion for charging time), absent features score `0.6 * weight`. -/
def specFeaturePoints (normalized : NFeatures) (refs : List (String × ℚ))
    (feature : String) (w : ℚ) : ℚ :=
  match alookup normalized feature with
  | some v =>
    let r := (alookup refs feature).getD 1
    if feature = "charging_time" then w * (1 - clamp01 (v / r))
    else w * clamp01 (v / r)
  | none => w * 0.6

/-- Spec-side quality score: sum the per-feature points, divide by the sum of
scorecard weights, multiply by 100, clamp to [0, 100]. -/
def specQualityScore (product_specs : Specs) (category : String) : ℚ :=
  let cat := resolveCategory category
  let scorecard := getScorecard cat
  let refs := getRefTable cat
  let normalized := normalizeSpecs product_specs cat
  let maxPossible := (scorecard.map Prod.snd).sum
  let total := (scorecard.map (fun p => specFeaturePoints normalized refs p.1 p.2)).sum
  max 0 (min 100 (total / maxPossible * 100))

/-! ### Alternative finder (`ProductDatabase.find_alternatives`) -/

/-- Failure of the underlying database layer (`execute_query` raising). -/
inductive DbError where
  | unavailable
deriving DecidableEq

/-- Row of the `products` table with the columns that determine the
`find_alternatives` result (the unparsed `specs` JSON blob and the unused
url/image columns do not affect filtering or ordering and are omitted). -/
structure AltRow where
  id : ℤ
  name : String
  category : String
  price : ℚ
  rating : ℚ
  quality_score : ℚ
  final_score : ℚ
deriving DecidableEq

/-- WHERE clause of the query: same category, `price <= max_price`,
`final_score >= min_score`. -/
def altMatches (category : String) (max_price min_score : ℚ) (r : AltRow) : Bool :=
  r.category = category && r.price ≤ max_price && min_score ≤ r.final_score

/-- ORDER BY `final_score DESC, price ASC`: row `a` may come before row `b`. -/
def altLE (a b : AltRow) : Prop :=
  b.final_score < a.final_score ∨ (a.final_score = b.final_score ∧ a.price ≤ b.price)

instance : DecidableRel altLE := fun a b => by
  unfold altLE
  infer_instance

instance : IsTotal AltRow altLE := ⟨by
  intro a b
  rcases lt_trichotomy a.final_score b.final_score with h | h | h
  · exact Or.inr (Or.inl h)
  · rcases le_total a.price b.price with hp | hp
    exacts [Or.inl (Or.inr ⟨h, hp⟩), Or.inr (Or.inr ⟨h.symm, hp⟩)]
  · exact Or.inl (Or.inl h)⟩

instance : IsTrans AltRow altLE := ⟨by
  intro a b c hab hbc
  rcases hab with h1 | ⟨e1, p1⟩ <;> rcases hbc with h2 | ⟨e2, p2⟩
  · exact Or.inl (h2.trans h1)
  · exact Or.inl (e2 ▸ h1)
  · exact Or.inl (e1.symm ▸ h2)
  · exact Or.inr ⟨e1.trans e2, p1.trans p2⟩⟩

/-- `ProductDatabase.find_alternatives(category, target_score, max_price,
limit)`.  The `db` argument is the outcome of fetching the products table;
`Except.error` models the query raising.  The SQL semantics of the fixed
query (WHERE filter, two-key ORDER BY, LIMIT) are modelled as
filter/sort/take.  The catch-all `except` handler returns an empty list, so
the function never surfaces an error. -/
def find_alternatives (db : Except DbError (List AltRow)) (category : String)
    (target_score max_price : ℚ) (limit : ℕ) : Except DbError (List AltRow) :=
  match db with
  | .error _ => .ok []
  | .ok rows =>
    let min_score := target_score * 0.9
    .ok ((List.insertionSort altLE (rows.filter (altMatches category max_price min_score))).take limit)

/-! ### Recommendation engine (`ProductRecommendationEngine`) -/

/-- Failure of an external backend (ChromaDB service, embedding model, or a
`None` collection handle raising `AttributeError`). -/
inductive BackendError where
  | unavailable
  | noneCollection
deriving DecidableEq

/-- Row of the `products` table as read by the recommendation engine.
`description` is `NULL` or text.  (The selected but unused `url` and
`image_url` columns are omitted; they never reach any output.) -/
structure Product where
  id : ℤ
  name : String
  description : Option String
  category : String
  price : ℚ
  rating : ℚ
  platform : String
deriving DecidableEq

/-- `description IS NOT NULL AND description != ''`. -/
def hasDescription (p : Product) : Bool :=
  match p.description with
  | some d => d ≠ ""
  | none => false

/-- `SELECT ... FROM products WHERE id = ? AND description IS NOT NULL AND
description != ''`, then `fetchone`. -/
def lookupTarget (products : List Product) (pid : ℤ) : Option Product :=
  products.find? (fun p => p.id = pid && hasDescription p)

/-- `f"{product['name']} - {product['description']}"`. -/
def embedText (p : Product) : String :=
  p.name ++ " - " ++ p.description.getD ""

/-- `document[:100] + "..." if len(document) > 100 else document`. -/
def previewOf (document : String) : String :=
  if 100 < document.length then String.mk (document.data.take 100) ++ "..." else document

/-- One hit of the external ChromaDB `collection.query` reply: parallel
entries of `ids`/`metadatas`/`distances`/`documents`.  Ids are stored as the
decimal string of the integer product id and modelled as the integer. -/
structure ChromaHit where
  id : ℤ
  name : String
  category : String
  price : ℚ
  rating : ℚ
  platform : String
  distance : ℚ
  document : String
deriving DecidableEq

/-- A recommendation dict as returned by `get_recommendations`.  The
similarity score lives in ℝ because the exact backend divides by
square-root vector norms. -/
structure Rec where
  id : ℤ
  name : String
  category : String
  price : ℚ
  rating : ℚ
  platform : String
  similarity_score : ℝ
  description_preview : String

/-- `np.dot` of two vectors (equal length in every use; `zipWith` models
componentwise product). -/
def dotQ (a b : List ℚ) : ℚ := (List.zipWith (fun x y => x * y) a b).sum

/-- Sum of squared components. -/
def sqNorm (v : List ℚ) : ℚ := (v.map (fun x => x * x)).sum

/-- `np.linalg.norm`: Euclidean norm. -/
noncomputable def normR (v : List ℚ) : ℝ := Real.sqrt ((sqNorm v : ℚ) : ℝ)

/-- The similarity of a stored vector `a` against the query vector `b` on
the exact backend (recommendations.py line 290):
`np.dot(a, b) / (np.linalg.norm(a) * (np.linalg.norm(b) + 1e-10))` —
the 1e-10 guard is applied to the query norm only. -/
noncomputable def cosSim (a b : List ℚ) : ℝ :=
  ((dotQ a b : ℚ) : ℝ) / (normR a * (normR b + 1 / 10 ^ 10))

/-- Stable insertion into a list sorted by descending similarity: a new pair
goes after earlier pairs with an equal or larger key (Python's stable
`list.sort(key=..., reverse=True)`). -/
noncomputable def insertDescBySim (p : ℤ × ℝ) : List (ℤ × ℝ) → List (ℤ × ℝ)
  | [] => [p]
  | q :: qs => if q.2 ≤ p.2 then p :: q :: qs else q :: insertDescBySim p qs

/-- Stable sort by descending similarity. -/
noncomputable def sortDescBySim : List (ℤ × ℝ) → List (ℤ × ℝ)
  | [] => []
  | p :: ps => insertDescBySim p (sortDescBySim ps)

/-- The engine state and its external collaborators: the products table, the
chroma collection contents, the external chroma query behaviour (reply to a
`query` with `n_results` hits requested), the SQLite `product_embeddings`
table, and the sentence-transformer model as a deterministic function. -/
structure Engine where
  useChroma : Bool
  products : List Product
  chromaIndex : List (ℤ × List ℚ)
  chromaQuery : ℕ → Except BackendError (List ChromaHit)
  sqliteEmb : List (ℤ × List ℚ)
  encode : String → List ℚ

/-- Result-processing loop of the ChromaDB branch of `get_recommendations`:
skip the target id, score each hit as `1 / (1 + distance)` rounded to 4
places, and break once `len(recommendations) >= num_recommendations`
(checked after appending).  `cnt` is the number of recommendations
accumulated so far. -/
noncomputable def chromaLoop (pid : ℤ) (k : ℕ) : List ChromaHit → ℕ → List Rec
  | [], _ => []
  | h :: hs, cnt =>
    if h.id = pid then chromaLoop pid k hs cnt
    else
      let r : Rec := ⟨h.id, h.name, h.category, h.price, h.rating, h.platform,
        ((pyRound (1 / (1 + h.distance)) 4 : ℚ) : ℝ), previewOf h.document⟩
      if k ≤ cnt + 1 then [r]
      else r :: chromaLoop pid k hs (cnt + 1)

/-- Similarity pairs of the exact backend: each stored embedding paired with
its similarity against the target vector. -/
noncomputable def sqlitePairs (emb : List (ℤ × List ℚ)) (tvec : List ℚ) : List (ℤ × ℝ) :=
  emb.map (fun e => (e.1, cosSim e.2 tvec))

/-- Exact-backend result assembly: exclude the target id, sort by descending
similarity, take the top `k`, and enrich each id from the products table —
an id whose row is gone is skipped (`if not row: continue`) with no
backfill from the remaining ranked candidates. -/
noncomputable def sqliteRecs (products : List Product) (pid : ℤ) (k : ℕ)
    (emb : List (ℤ × List ℚ)) (tvec : List ℚ) : List Rec :=
  let pairs := (sqlitePairs emb tvec).filter (fun p => p.1 ≠ pid)
  let top := (sortDescBySim pairs).take k
  top.filterMap (fun p =>
    (products.find? (fun row => row.id = p.1)).map (fun row =>
      ⟨row.id, row.name, row.category, row.price, row.rating, row.platform,
        pyRound p.2 4, previewOf (row.description.getD "")⟩))

/-- `ProductRecommendationEngine.get_recommendations(product_id,
num_recommendations)`.  A missing target product (or one with a NULL/empty
description) returns an empty successful list; an empty embeddings table on
the SQLite backend also returns an empty successful list; a ChromaDB query
failure is re-raised. -/
noncomputable def get_recommendations (eng : Engine) (pid : ℤ) (k : ℕ) :
    Except BackendError (List Rec) :=
  match lookupTarget eng.products pid with
  | none => .ok []
  | some target =>
    let tvec := eng.encode (embedText target)
    if eng.useChroma then
      match eng.chromaQuery (k + 1) with
      | .error e => .error e
      | .ok hits => .ok (chromaLoop pid k hits 0)
    else
      if eng.sqliteEmb.isEmpty then .ok []
      else .ok (sqliteRecs eng.products pid k eng.sqliteEmb tvec)

/-- Modelled from the spec: the external vector collection's write for an id
follows the §4.4 Embedding Index contract `upsert(id, vector, metadata)` —
it replaces any existing entry for the id.  (The collection is third-party
ChromaDB code, outside the repository sources; only this contract is
specified for it.) -/
def upsertEntry (idx : List (ℤ × List ℚ)) (e : ℤ × List ℚ) : List (ℤ × List ℚ) :=
  idx.filter (fun x => x.1 ≠ e.1) ++ [e]

/-- Batch write of entries, one upsert per entry. -/
def upsertAll (idx : List (ℤ × List ℚ)) (es : List (ℤ × List ℚ)) : List (ℤ × List ℚ) :=
  es.foldl upsertEntry idx

/-- Number of stored vectors for a product id. -/
def countId (idx : List (ℤ × List ℚ)) (pid : ℤ) : ℕ :=
  (idx.filter (fun e => e.1 = pid)).length

/-- `ProductRecommendationEngine.add_product_embedding(product_id)`
(`index_one`).  A missing product is a logged no-op.  The write always goes
through `self.collection.add`: on the ChromaDB backend this writes to the
collection; on the SQLite backend `self.collection` is `None` (it is never
assigned in that mode), so the call raises `AttributeError`, which the
handler re-raises. -/
def add_product_embedding (eng : Engine) (pid : ℤ) : Except BackendError Engine :=
  match lookupTarget eng.products pid with
  | none => .ok eng
  | some p =>
    if eng.useChroma then
      .ok { eng with chromaIndex := upsertEntry eng.chromaIndex (pid, eng.encode (embedText p)) }
    else
      .error .noneCollection

/-- The engine state after one successful chroma-backend `index_one` write
for product `p` under id `pid`. -/
def indexedOnce (eng : Engine) (pid : ℤ) (p : Product) : Engine :=
  { eng with chromaIndex := upsertEntry eng.chromaIndex (pid, eng.encode (embedText p)) }

/-- Failure injection for the external steps of the batch rebuild. -/
structure ReindexOps where
  deleteFails : Bool
  addFails : Bool
  sqliteFails : Bool
deriving DecidableEq

/-- The entries a full rebuild writes: one vector per catalog product with a
non-NULL, non-empty description. -/
def reindexEntries (eng : Engine) : List (ℤ × List ℚ) :=
  (eng.products.filter hasDescription).map (fun p => (p.id, eng.encode (embedText p)))

/-- `ProductRecommendationEngine.generate_embeddings_for_all_products`
(`reindex_all`), returning the state observable afterwards and an error if
one was raised.  No products with a description: logged no-op.  ChromaDB
branch: `collection.get`+`collection.delete` (failure caught and ignored,
leaving the old contents), then `collection.add` of all new entries
(failure re-raised, with the delete already applied).  SQLite branch:
`DELETE FROM product_embeddings` plus one `INSERT OR REPLACE` per product
inside a single transaction committed at the end, so a failure before the
commit rolls back to the prior table contents. -/
def generate_embeddings_for_all_products (eng : Engine) (ops : ReindexOps) :
    Engine × Option BackendError :=
  if (eng.products.filter hasDescription).isEmpty then (eng, none)
  else
    let entries := reindexEntries eng
    if eng.useChroma then
      let idx1 := if ops.deleteFails then eng.chromaIndex else []
      if ops.addFails then ({ eng with chromaIndex := idx1 }, some .unavailable)
      else ({ eng with chromaIndex := upsertAll idx1 entries }, none)
    else
      if ops.sqliteFails then (eng, some .unavailable)
      else ({ eng with sqliteEmb := upsertAll [] entries }, none)

/-! ### Concrete engine states used as counterexample inputs -/

/-- A catalog whose only product has an empty description. -/
def engNoDesc : Engine :=
  { useChroma := false
    products := [⟨1, "Widget", some "", "general", 10, 4, "amazon"⟩]
    chromaIndex := []
    chromaQuery := fun _ => .ok []
    sqliteEmb := [(2, [1])]
    encode := fun _ => [1] }

/-- Exact-backend state holding a stored vector opposite to the query
vector, so its cosine similarity is negative. -/
def engOpp : Engine :=
  { useChroma := false
    products := [⟨1, "A", some "x", "general", 10, 4, "amazon"⟩,
                 ⟨2, "B", some "y", "general", 12, 4, "amazon"⟩]
    chromaIndex := []
    chromaQuery := fun _ => .ok []
    sqliteEmb := [(2, [-1])]
    encode := fun _ => [1] }

/-- The recommendation produced for `engOpp`: similarity −1. -/
noncomputable def recNeg : Rec := ⟨2, "B", "general", 12, 4, "amazon", -1, "y"⟩

/-- Exact-backend state where the top-ranked neighbor id (2) has a stored
embedding but no product row, while a lower-ranked neighbor (3) has both. -/
def engGone : Engine :=
  { useChroma := false
    products := [⟨1, "A", some "x", "general", 10, 4, "amazon"⟩,
                 ⟨3, "C", some "z", "general", 11, 4, "amazon"⟩]
    chromaIndex := []
    chromaQuery := fun _ => .ok []
    sqliteEmb := [(2, [1]), (3, [1])]
    encode := fun _ => [1] }

/-- Chroma-backend state with one stale indexed vector and a one-product
catalog, used to exhibit the non-atomic delete-then-add rebuild. -/
def engStale : Engine :=
  { useChroma := true
    products := [⟨2, "N", some "d", "general", 5, 4, "amazon"⟩]
    chromaIndex := [(1, [1])]
    chromaQuery := fun _ => .ok []
    sqliteEmb := []
    encode := fun _ => [1] }

/-- SQLite-backend state with one indexable product, used to show that
`index_one` fails in that mode. -/
def engSqliteOne : Engine :=
  { useChroma := false
    products := [⟨1, "A", some "x", "general", 10, 4, "amazon"⟩]
    chromaIndex := []
    chromaQuery := fun _ => .ok []
    sqliteEmb := []
    encode := fun _ => [1] }

/-- Chroma-backend state with one indexable product, used as the witness
input for `index_one` idempotence. -/
def engChromaOne : Engine :=
  { useChroma := true
    products := [⟨1, "A", some "x", "general", 10, 4, "amazon"⟩]
    chromaIndex := []
    chromaQuery := fun _ => .ok []
    sqliteEmb := []
    encode := fun _ => [1] }

/-! ### Lemmas about lookups and normalizer values -/

theorem alookup_mem {α : Type} {tbl : List (String × α)} {k : String} {v : α}
    (h : alookup tbl k = some v) : ∃ p ∈ tbl, p.2 = v := by
  unfold alookup at h
  cases hf : tbl.find? (fun p => p.1 = k) with
  | none => rw [hf] at h; simp at h
  | some p =>
    refine ⟨p, List.mem_of_find?_eq_some hf, ?_⟩
    rw [hf] at h
    simpa using h

theorem alookup_eq_none {α : Type} (tbl : List (String × α)) (k : String)
    (h : ∀ p ∈ tbl, p.1 ≠ k) : alookup tbl k = none := by
  unfold alookup
  have : tbl.find? (fun p => p.1 = k) = none :=
    List.find?_eq_none.mpr (fun p hp => by simpa using h p hp)
  simp [this]

/-- All values of a normalized feature list are nonnegative. -/
def NonnegVals (l : NFeatures) : Prop := ∀ p ∈ l, 0 ≤ p.2

theorem nonnegVals_nil : NonnegVals [] := by
  intro p hp
  simp at hp

theorem nonnegVals_append {l1 l2 : NFeatures} (h1 : NonnegVals l1) (h2 : NonnegVals l2) :
    NonnegVals (l1 ++ l2) := by
  intro p hp
  rcases List.mem_append.mp hp with h | h
  exacts [h1 p h, h2 p h]

theorem nonnegVals_single {n : String} {v : ℚ} (hv : 0 ≤ v) : NonnegVals [(n, v)] := by
  intro p hp
  rw [List.mem_singleton] at hp
  subst hp
  exact hv

theorem nonnegVals_addIfPos {l : NFeatures} (name : String) (o : Option ℕ)
    (h : NonnegVals l) : NonnegVals (addIfPos name o l) := by
  unfold addIfPos
  split
  · split
    · exact nonnegVals_append h (nonnegVals_single (by positivity))
    · exact h
  · exact h

theorem nonnegVals_ite {c : Prop} [Decidable c] {l1 l2 : NFeatures}
    (h1 : NonnegVals l1) (h2 : NonnegVals l2) : NonnegVals (if c then l1 else l2) := by
  split
  exacts [h1, h2]

theorem nonneg_normalizeHeadphones (specs : Specs) : NonnegVals (normalizeHeadphones specs) := by
  simp only [normalizeHeadphones]
  have hn1 : NonnegVals (if sHasKey specs "battery_life" || sHasKey specs "Battery Life" then
      addIfPos "battery_life"
        (extract_numeric (sGet specs "battery_life" (sGet specs "Battery Life" ""))
          ["h".toList]) [] else []) :=
    nonnegVals_ite (nonnegVals_addIfPos _ _ nonnegVals_nil) nonnegVals_nil
  apply nonnegVals_addIfPos
  apply nonnegVals_append
  · apply nonnegVals_append
    · exact nonnegVals_ite (nonnegVals_addIfPos _ _ hn1) hn1
    · exact nonnegVals_single (by split <;> norm_num)
  · exact nonnegVals_single (by split_ifs <;> norm_num)

theorem nonneg_normalizeTrimmer (specs : Specs) : NonnegVals (normalizeTrimmer specs) := by
  simp only [normalizeTrimmer]
  apply nonnegVals_addIfPos
  apply nonnegVals_append
  · apply nonnegVals_append
    · exact nonnegVals_addIfPos _ _ nonnegVals_nil
    · exact nonnegVals_single (by split_ifs <;> norm_num)
  · exact nonnegVals_single (by split <;> norm_num)

theorem nonneg_normalizeMixer (specs : Specs) : NonnegVals (normalizeMixer specs) := by
  simp only [normalizeMixer]
  exact nonnegVals_addIfPos _ _ (nonnegVals_addIfPos _ _ (nonnegVals_addIfPos _ _ nonnegVals_nil))

theorem nonneg_normalizeSmartphone (specs : Specs) : NonnegVals (normalizeSmartphone specs) := by
  simp only [normalizeSmartphone]
  exact nonnegVals_addIfPos _ _ (nonnegVals_addIfPos _ _ (nonnegVals_addIfPos _ _ nonnegVals_nil))

theorem nonneg_normalizeClothing (specs : Specs) : NonnegVals (normalizeClothing specs) := by
  simp only [normalizeClothing]
  exact nonnegVals_single (by split_ifs <;> norm_num)

theorem nonneg_normalizeGeneral (specs : Specs) : NonnegVals (normalizeGeneral specs) := by
  intro p hp
  simp only [normalizeGeneral, List.mem_cons, List.not_mem_nil, or_false] at hp
  rcases hp with h | h | h | h <;> rw [h] <;> simp

theorem nonneg_normalizeSpecs (specs : Specs) (cat : String) :
    NonnegVals (normalizeSpecs specs cat) := by
  unfold normalizeSpecs
  split_ifs
  · exact nonneg_normalizeHeadphones specs
  · exact nonneg_normalizeTrimmer specs
  · exact nonneg_normalizeMixer specs
  · exact nonneg_normalizeSmartphone specs
  · exact nonnegVals_nil
  · exact nonneg_normalizeClothing specs
  · exact nonneg_normalizeGeneral specs

theorem alookup_normalize_nonneg {specs : Specs} {cat f : String} {v : ℚ}
    (h : alookup (normalizeSpecs specs cat) f = some v) : 0 ≤ v := by
  obtain ⟨p, hp, hv⟩ := alookup_mem h
  exact hv ▸ nonneg_normalizeSpecs specs cat p hp

theorem refTable_pos (c f : String) : 0 < (alookup (getRefTable c) f).getD 1 := by
  have hall : ∀ q ∈ referenceValues, ∀ p ∈ q.2, 0 < p.2 := by
    norm_num +decide [referenceValues]
  cases hf : alookup (getRefTable c) f with
  | none => norm_num
  | some r =>
    obtain ⟨p, hp, hv⟩ := alookup_mem hf
    have hmem : ∀ p ∈ getRefTable c, 0 < p.2 := by
      unfold getRefTable
      cases hg : alookup referenceValues c with
      | none => simp
      | some t =>
        obtain ⟨q, hq, hqv⟩ := alookup_mem hg
        simp only [Option.getD_some]
        exact hqv ▸ hall q hq
    simpa [hv] using hmem p hp

theorem featurePoints_eq_spec {normalized : NFeatures} {refs : List (String × ℚ)}
    {f : String} (w : ℚ)
    (hn : ∀ v, alookup normalized f = some v → 0 ≤ v)
    (hr : 0 < (alookup refs f).getD 1) :
    featurePoints normalized refs f w = specFeaturePoints normalized refs f w := by
  cases h : alookup normalized f with
  | none =>
    unfold featurePoints specFeaturePoints
    rw [h]
  | some v =>
    have hdiv : 0 ≤ v / (alookup refs f).getD 1 := div_nonneg (hn v h) hr.le
    have hc : clamp01 (v / (alookup refs f).getD 1) = min (v / (alookup refs f).getD 1) 1 := by
      unfold clamp01
      exact max_eq_right (le_min hdiv zero_le_one)
    have e1 : featurePoints normalized refs f w =
        (if f = "charging_time" then w * (1 - min (v / (alookup refs f).getD 1) 1)
         else w * min (v / (alookup refs f).getD 1) 1) := by
      unfold featurePoints
      rw [h]
    have e2 : specFeaturePoints normalized refs f w =
        (if f = "charging_time" then w * (1 - clamp01 (v / (alookup refs f).getD 1))
         else w * clamp01 (v / (alookup refs f).getD 1)) := by
      unfold specFeaturePoints
      rw [h]
    rw [e1, e2, hc]

/-! ### Claim C2 -/

/-- C2 (confirmed): for every specs mapping and category, the computed quality
score equals the spec's algorithm: each scorecard feature present in the
normalized feature set scores `weight * clamp(value/reference, 0, 1)` (with
the lower-is-better inversion for `charging_time`), each absent feature
scores `0.6 * weight`, and the total is divided by the sum of the scorecard
weights, multiplied by 100 and clamped to [0, 100]. -/
theorem quality_score_matches_spec_algorithm (product_specs : Specs) (category : String) :
    calculate_quality_score product_specs category = specQualityScore product_specs category := by
  simp only [calculate_quality_score, specQualityScore]
  have hmap : List.map
      (fun p => featurePoints (normalizeSpecs product_specs (resolveCategory category))
        (getRefTable (resolveCategory category)) p.1 p.2)
      (getScorecard (resolveCategory category)) =
    List.map
      (fun p => specFeaturePoints (normalizeSpecs product_specs (resolveCategory category))
        (getRefTable (resolveCategory category)) p.1 p.2)
      (getScorecard (resolveCategory category)) := by
    apply List.map_congr_left
    intro p _
    exact featurePoints_eq_spec p.2 (fun v hv => alookup_normalize_nonneg hv)
      (refTable_pos (resolveCategory category) p.1)
  rw [hmap]

/-! ### Claim C1 -/

/-- C1 counterexample: the quality score of an empty specs mapping in the
`headphones` category is not 60.0 (it is 48.0: the headphones normalizer
emits `noise_cancellation = 0` and `build_quality = 3` even for empty
specs, so not every feature falls back to the 0.6 default). -/
theorem empty_specs_headphones_not_60 : calculate_quality_score [] "headphones" ≠ 60 := by
  norm_num +decide [calculate_quality_score, resolveCategory, alookup, categoryScorecards,
    getScorecard, getRefTable, referenceValues, normalizeSpecs, normalizeHeadphones,
    specsText, joinSpace, anyKeyword, strContains, listIsInfix, extract_numeric,
    addIfPos, sHasKey, sGet, featurePoints, pyLower, List.find?,
    decide_False, decide_True, inf_eq_min, sup_eq_max, min_def, max_def]

/-- C1 amended: with an empty specs mapping the quality score is 60.0 only
for the `mixer`, `smartphone` and `laptop` categories (whose normalizers
extract nothing from empty specs); `headphones` and `trimmer` yield 48.0
(their normalizers always emit default boolean/ordinal features),
`clothing` yields 72.0 (default material ordinal 3 against reference 1),
and `general` and every unregistered category yield 70.0. -/
theorem empty_specs_score_by_category (c : String) :
    calculate_quality_score [] c =
      if c = "headphones" ∨ c = "trimmer" then 48
      else if c = "mixer" ∨ c = "smartphone" ∨ c = "laptop" then 60
      else if c = "clothing" then 72
      else 70 := by
  by_cases h1 : c = "headphones"
  · subst h1
    norm_num +decide [calculate_quality_score, resolveCategory, alookup, categoryScorecards,
      getScorecard, getRefTable, referenceValues, normalizeSpecs, normalizeHeadphones,
      specsText, joinSpace, anyKeyword, strContains, listIsInfix, extract_numeric,
      addIfPos, sHasKey, sGet, featurePoints, pyLower, List.find?,
      decide_False, decide_True, inf_eq_min, sup_eq_max, min_def, max_def]
  by_cases h2 : c = "trimmer"
  · subst h2
    norm_num +decide [calculate_quality_score, resolveCategory, alookup, categoryScorecards,
      getScorecard, getRefTable, referenceValues, normalizeSpecs, normalizeTrimmer,
      specsText, joinSpace, anyKeyword, strContains, listIsInfix, extract_numeric,
      addIfPos, sHasKey, sGet, featurePoints, pyLower, List.find?,
      decide_False, decide_True, inf_eq_min, sup_eq_max, min_def, max_def]
  by_cases h3 : c = "mixer"
  · subst h3
    norm_num +decide [calculate_quality_score, resolveCategory, alookup, categoryScorecards,
      getScorecard, getRefTable, referenceValues, normalizeSpecs, normalizeMixer,
      specsText, joinSpace, anyKeyword, strContains, listIsInfix, extract_numeric,
      addIfPos, sHasKey, sGet, featurePoints, pyLower, List.find?,
      decide_False, decide_True, inf_eq_min, sup_eq_max, min_def, max_def]
  by_cases h4 : c = "smartphone"
  · subst h4
    norm_num +decide [calculate_quality_score, resolveCategory, alookup, categoryScorecards,
      getScorecard, getRefTable, referenceValues, normalizeSpecs, normalizeSmartphone,
      specsText, joinSpace, anyKeyword, strContains, listIsInfix, extract_numeric,
      addIfPos, sHasKey, sGet, featurePoints, pyLower, List.find?,
      decide_False, decide_True, inf_eq_min, sup_eq_max, min_def, max_def]
  by_cases h5 : c = "laptop"
  · subst h5
    norm_num +decide [calculate_quality_score, resolveCategory, alookup, categoryScorecards,
      getScorecard, getRefTable, referenceValues, normalizeSpecs, normalizeLaptop,
      specsText, joinSpace, anyKeyword, strContains, listIsInfix, extract_numeric,
      addIfPos, sHasKey, sGet, featurePoints, pyLower, List.find?,
      decide_False, decide_True, inf_eq_min, sup_eq_max, min_def, max_def]
  by_cases h6 : c = "clothing"
  · subst h6
    norm_num +decide [calculate_quality_score, resolveCategory, alookup, categoryScorecards,
      getScorecard, getRefTable, referenceValues, normalizeSpecs, normalizeClothing,
      specsText, joinSpace, anyKeyword, strContains, listIsInfix, extract_numeric,
      addIfPos, sHasKey, sGet, featurePoints, pyLower, List.find?,
      decide_False, decide_True, inf_eq_min, sup_eq_max, min_def, max_def]
  by_cases h7 : c = "general"
  · subst h7
    norm_num +decide [calculate_quality_score, resolveCategory, alookup, categoryScorecards,
      getScorecard, getRefTable, referenceValues, normalizeSpecs, normalizeGeneral,
      specsText, joinSpace, anyKeyword, strContains, listIsInfix, extract_numeric,
      addIfPos, sHasKey, sGet, featurePoints, pyLower, List.find?,
      decide_False, decide_True, inf_eq_min, sup_eq_max, min_def, max_def]
  · have hnone : alookup categoryScorecards c = none := by
      apply alookup_eq_none
      intro p hp
      simp only [categoryScorecards, List.mem_cons, List.not_mem_nil, or_false] at hp
      rcases hp with h | h | h | h | h | h | h <;> rw [h] <;> intro hc <;> subst hc <;>
        simp_all
    have hres : resolveCategory c = "general" := by
      unfold resolveCategory
      rw [hnone]
      simp
    simp only [calculate_quality_score, hres, h1, h2, h3, h4, h5, h6]
    norm_num +decide [alookup, categoryScorecards,
      getScorecard, getRefTable, referenceValues, normalizeSpecs, normalizeGeneral,
      specsText, joinSpace, anyKeyword, strContains, listIsInfix, extract_numeric,
      addIfPos, sHasKey, sGet, featurePoints, pyLower, List.find?,
      decide_False, decide_True, inf_eq_min, sup_eq_max, min_def, max_def]

/-! ### Claim C6 -/

theorem roundHalfEven_intCast {α : Type} [LinearOrderedField α] [FloorRing α] (n : ℤ) :
    roundHalfEven (n : α) = n := by
  unfold roundHalfEven
  norm_num

/-- C6 counterexample: `calculate_final_score(q, 5.0)` is not `q` for every
quality score: at q = 0.001 the product 0.001 * (5/5) rounds to two decimal
places as 0.0 ≠ 0.001. -/
theorem final_score_rating5_not_identity :
    calculate_final_score (1 / 1000) 5 ≠ 1 / 1000 := by
  norm_num [calculate_final_score, pyRound, roundHalfEven]

/-- C6 amended: `calculate_final_score(q, r)` is `q * (r/5)` rounded to two
decimal places, so `final_score(q, 5.0) = q` holds exactly for scores that
are integer multiples of 0.01 (rounding is the identity there), and
`final_score(q, 0.0) = 0` holds for every q. -/
theorem final_score_props :
    (∀ q : ℚ, (∃ n : ℤ, q = n / 100) → calculate_final_score q 5 = q) ∧
    ∀ q : ℚ, calculate_final_score q 0 = 0 := by
  constructor
  · rintro q ⟨n, rfl⟩
    unfold calculate_final_score pyRound
    rw [show (n : ℚ) / 100 * (5 / 5) * 10 ^ 2 = (n : ℚ) by push_cast; ring]
    rw [roundHalfEven_intCast]
    norm_num
  · intro q
    unfold calculate_final_score pyRound
    norm_num [roundHalfEven]

/-- Witness for `final_score_props` at q = 0.25 = 25/100. -/
theorem final_score_props_witness :
    calculate_final_score (1 / 4) 5 = 1 / 4 ∧ calculate_final_score (1 / 4) 0 = 0 :=
  ⟨final_score_props.1 (1 / 4) ⟨25, by norm_num⟩, final_score_props.2 (1 / 4)⟩

/-! ### Claim C5 -/

/-- C5 (confirmed): `find_alternatives` succeeds on every catalog state and
returns exactly the rows of the same category with `price <= max_price` and
`final_score >= target_score * 0.9`, ordered by descending final score and
then ascending price, truncated to `limit`: the result is the `limit`-prefix
of a permutation of the matching rows sorted by that order (tie order beyond
the two sort keys is not fixed by SQL), so truncation keeps the best-ranked
matches; when nothing matches the result is the empty list, not an error. -/
theorem find_alternatives_query_contract (rows : List AltRow) (category : String)
    (target_score max_price : ℚ) (limit : ℕ) :
    ∃ res, find_alternatives (.ok rows) category target_score max_price limit = .ok res ∧
      (∃ l : List AltRow,
        List.Perm l (rows.filter (altMatches category max_price (target_score * 0.9))) ∧
        l.Sorted altLE ∧ res = l.take limit) ∧
      (∀ r ∈ res, r ∈ rows ∧ r.category = category ∧ r.price ≤ max_price ∧
        target_score * 0.9 ≤ r.final_score) ∧
      (rows.filter (altMatches category max_price (target_score * 0.9)) = [] → res = []) := by
  refine ⟨_, rfl,
    ⟨List.insertionSort altLE (rows.filter (altMatches category max_price (target_score * 0.9))),
      List.perm_insertionSort altLE _, List.sorted_insertionSort altLE _, rfl⟩, ?_, ?_⟩
  · intro r hr
    have hsort : r ∈ List.insertionSort altLE
        (rows.filter (altMatches category max_price (target_score * 0.9))) :=
      (List.take_sublist _ _).mem hr
    have hf : r ∈ rows.filter (altMatches category max_price (target_score * 0.9)) :=
      (List.mem_insertionSort altLE).mp hsort
    have hmem := List.mem_of_mem_filter hf
    have hpred := List.of_mem_filter hf
    simp only [altMatches, Bool.and_eq_true, decide_eq_true_eq] at hpred
    exact ⟨hmem, hpred.1.1, hpred.1.2, hpred.2⟩
  · intro hempty
    rw [hempty]
    simp

/-- Witness for `find_alternatives_query_contract` on the fixed fixture of
the spec's testable property (headphones, target 80, price cap 1000). -/
theorem find_alternatives_query_contract_witness :
    ∃ res, find_alternatives
        (.ok [⟨1, "A", "headphones", 900, 4, 90, 85⟩, ⟨2, "B", "headphones", 1200, 4, 90, 95⟩,
              ⟨3, "C", "mixer", 500, 4, 80, 80⟩, ⟨4, "D", "headphones", 800, 4, 80, 85⟩,
              ⟨5, "E", "headphones", 700, 4, 60, 50⟩])
        "headphones" 80 1000 10 = .ok res ∧
      (∃ l : List AltRow,
        List.Perm l ([⟨1, "A", "headphones", 900, 4, 90, 85⟩,
              ⟨2, "B", "headphones", 1200, 4, 90, 95⟩,
              ⟨3, "C", "mixer", 500, 4, 80, 80⟩, ⟨4, "D", "headphones", 800, 4, 80, 85⟩,
              (⟨5, "E", "headphones", 700, 4, 60, 50⟩ : AltRow)].filter
                (altMatches "headphones" 1000 ((80 : ℚ) * 0.9))) ∧
        l.Sorted altLE ∧ res = l.take 10) ∧
      (∀ r ∈ res, r ∈ [⟨1, "A", "headphones", 900, 4, 90, 85⟩,
              ⟨2, "B", "headphones", 1200, 4, 90, 95⟩,
              ⟨3, "C", "mixer", 500, 4, 80, 80⟩, ⟨4, "D", "headphones", 800, 4, 80, 85⟩,
              (⟨5, "E", "headphones", 700, 4, 60, 50⟩ : AltRow)] ∧
        r.category = "headphones" ∧ r.price ≤ 1000 ∧ (80 : ℚ) * 0.9 ≤ r.final_score) ∧
      ([⟨1, "A", "headphones", 900, 4, 90, 85⟩, ⟨2, "B", "headphones", 1200, 4, 90, 95⟩,
              ⟨3, "C", "mixer", 500, 4, 80, 80⟩, ⟨4, "D", "headphones", 800, 4, 80, 85⟩,
              (⟨5, "E", "headphones", 700, 4, 60, 50⟩ : AltRow)].filter
                (altMatches "headphones" 1000 ((80 : ℚ) * 0.9)) = [] → res = []) :=
  find_alternatives_query_contract _ "headphones" 80 1000 10

/-! ### Rounding bounds and sort membership -/

theorem roundHalfEven_le {α : Type} [LinearOrderedField α] [FloorRing α] {x : α} {n : ℤ}
    (h : x ≤ (n : α)) : roundHalfEven x ≤ n := by
  have hfl : ⌊x⌋ ≤ n := (Int.floor_le_floor h).trans_eq (Int.floor_intCast n)
  simp only [roundHalfEven]
  split_ifs with h1 h2 h3
  · exact hfl
  · have hhalf : (1 : α) / 2 ≤ x - ⌊x⌋ := not_lt.mp h1
    have hlt : (⌊x⌋ : α) < (n : α) := by
      have := Int.floor_le x
      linarith
    exact Int.lt_iff_add_one_le.mp (by exact_mod_cast hlt)
  · exact hfl
  · have hhalf : (1 : α) / 2 ≤ x - ⌊x⌋ := not_lt.mp h1
    have hlt : (⌊x⌋ : α) < (n : α) := by linarith
    exact Int.lt_iff_add_one_le.mp (by exact_mod_cast hlt)

theorem le_roundHalfEven {α : Type} [LinearOrderedField α] [FloorRing α] {x : α} {n : ℤ}
    (h : (n : α) ≤ x) : n ≤ roundHalfEven x := by
  have hfl : n ≤ ⌊x⌋ := Int.le_floor.mpr h
  simp only [roundHalfEven]
  split_ifs with h1 h2 h3
  · exact hfl
  · exact hfl.trans (by omega)
  · exact hfl
  · exact hfl.trans (by omega)

theorem pyRound_bounds {α : Type} [LinearOrderedField α] [FloorRing α] (x : α) (a b : ℤ)
    (h1 : (a : α) ≤ x) (h2 : x ≤ (b : α)) (nd : ℕ) :
    (a : α) ≤ pyRound x nd ∧ pyRound x nd ≤ (b : α) := by
  have hp : (0 : α) < 10 ^ nd := by positivity
  have hl : ((a * 10 ^ nd : ℤ) : α) ≤ x * 10 ^ nd := by
    push_cast
    exact mul_le_mul_of_nonneg_right h1 hp.le
  have hr : x * 10 ^ nd ≤ ((b * 10 ^ nd : ℤ) : α) := by
    push_cast
    exact mul_le_mul_of_nonneg_right h2 hp.le
  have h3 := le_roundHalfEven hl
  have h4 := roundHalfEven_le hr
  unfold pyRound
  constructor
  · rw [le_div_iff hp]
    calc (a : α) * 10 ^ nd = ((a * 10 ^ nd : ℤ) : α) := by push_cast; ring
    _ ≤ (roundHalfEven (x * 10 ^ nd) : α) := by exact_mod_cast h3
  · rw [div_le_iff hp]
    calc (roundHalfEven (x * 10 ^ nd) : α) ≤ ((b * 10 ^ nd : ℤ) : α) := by exact_mod_cast h4
    _ = (b : α) * 10 ^ nd := by push_cast; ring

theorem mem_insertDescBySim {p q : ℤ × ℝ} {l : List (ℤ × ℝ)} :
    q ∈ insertDescBySim p l ↔ q = p ∨ q ∈ l := by
  induction l with
  | nil => simp [insertDescBySim]
  | cons a t ih =>
    simp only [insertDescBySim]
    split
    · simp [List.mem_cons]
    · simp only [List.mem_cons, ih]
      tauto

theorem mem_sortDescBySim {q : ℤ × ℝ} {l : List (ℤ × ℝ)} :
    q ∈ sortDescBySim l ↔ q ∈ l := by
  induction l with
  | nil => simp [sortDescBySim]
  | cons a t ih => simp [sortDescBySim, mem_insertDescBySim, ih]

/-! ### Claim C3 -/

/-- C3 counterexample: for a catalog whose only product (id 1) has an empty
description, `get_recommendations(1, 5)` returns a silently-successful
empty list instead of failing with a NotFound error. -/
theorem recommend_missing_description_ok_empty :
    get_recommendations engNoDesc 1 5 = Except.ok [] := rfl

/-- C3 amended: when the product id is absent from the catalog or its
description is NULL or empty, `get_recommendations` returns a successful
empty list (after logging a warning); it raises no NotFound error, so a
missing product is indistinguishable from a product with no good
neighbors. -/
theorem recommend_missing_product_ok_empty (eng : Engine) (pid : ℤ) (k : ℕ)
    (h : lookupTarget eng.products pid = none) :
    get_recommendations eng pid k = Except.ok [] := by
  unfold get_recommendations
  rw [h]

/-- Witness for `recommend_missing_product_ok_empty` on `engNoDesc`. -/
theorem recommend_missing_product_ok_empty_witness :
    lookupTarget engNoDesc.products 1 = none ∧
    get_recommendations engNoDesc 1 5 = Except.ok [] :=
  ⟨rfl, recommend_missing_product_ok_empty engNoDesc 1 5 rfl⟩

/-! ### Claim C4 -/

/-- C4 counterexample: `find_alternatives` does not propagate a backend
failure — with the database layer failing it returns a successful empty
list (the catch-all handler logs and returns `[]`). -/
theorem find_alternatives_fallback_on_failure :
    find_alternatives (.error .unavailable) "headphones" 80 1000 10 = .ok [] := rfl

/-- C4 amended: the retrieval operations differ: `get_recommendations`
re-raises a backend failure of the index query to its caller, but
`find_alternatives` catches every exception and substitutes an empty-list
fallback, never surfacing an error. -/
theorem retrieval_failure_handling :
    (∀ (e : DbError) (category : String) (t m : ℚ) (l : ℕ),
      find_alternatives (.error e) category t m l = .ok []) ∧
    ∀ (eng : Engine) (pid : ℤ) (k : ℕ) (p : Product) (e : BackendError),
      eng.useChroma = true →
      lookupTarget eng.products pid = some p →
      eng.chromaQuery (k + 1) = .error e →
      get_recommendations eng pid k = .error e := by
  constructor
  · intro e category t m l
    rfl
  · intro eng pid k p e hc hp hq
    unfold get_recommendations
    rw [hp]
    simp [hc, hq]

/-- Witness for `retrieval_failure_handling`: the find_alternatives part at
a failing database, and the propagation part on a chroma-backend engine
whose query fails. -/
theorem retrieval_failure_handling_witness :
    find_alternatives (.error .unavailable) "mixer" 70 500 5 = .ok [] ∧
    get_recommendations
      { useChroma := true
        products := [⟨1, "A", some "x", "general", 10, 4, "amazon"⟩]
        chromaIndex := []
        chromaQuery := fun _ => .error .unavailable
        sqliteEmb := []
        encode := fun _ => [1] } 1 5 = .error .unavailable :=
  ⟨retrieval_failure_handling.1 .unavailable "mixer" 70 500 5,
   retrieval_failure_handling.2 _ 1 5 ⟨1, "A", some "x", "general", 10, 4, "amazon"⟩
     .unavailable rfl rfl rfl⟩

/-! ### Claim C9 -/

theorem upsertEntry_idem (idx : List (ℤ × List ℚ)) (e : ℤ × List ℚ) :
    upsertEntry (upsertEntry idx e) e = upsertEntry idx e := by
  unfold upsertEntry
  rw [List.filter_append, List.filter_filter]
  have h1 : List.filter (fun x => decide (x.1 ≠ e.1) && decide (x.1 ≠ e.1)) idx =
      List.filter (fun x => x.1 ≠ e.1) idx := by
    apply List.filter_congr
    intro a _
    simp
  have h2 : List.filter (fun x => x.1 ≠ e.1) [e] = [] := by
    simp
  rw [h1, h2]
  simp

theorem countId_upsertEntry (idx : List (ℤ × List ℚ)) (pid : ℤ) (v : List ℚ) :
    countId (upsertEntry idx (pid, v)) pid = 1 := by
  unfold countId upsertEntry
  rw [List.filter_append]
  have h1 : (idx.filter fun x => x.1 ≠ (pid, v).1).filter (fun e => e.1 = pid) = [] := by
    rw [List.filter_eq_nil]
    intro a ha
    have h := List.of_mem_filter ha
    simp at h ⊢
    exact h
  rw [h1]
  simp

/-- C9 counterexample: on the SQLite backend (`USE_CHROMA=false`) the
`self.collection` handle is never assigned, so `index_one` raises on its
`collection.add` call and stores nothing — after two calls there are zero,
not one, vectors for the id anywhere in the engine state. -/
theorem index_one_sqlite_backend_fails :
    add_product_embedding engSqliteOne 1 = .error .noneCollection ∧
    countId engSqliteOne.chromaIndex 1 = 0 ∧ engSqliteOne.sqliteEmb = [] :=
  ⟨rfl, rfl, rfl⟩

/-- C9 amended: on the ChromaDB backend (with the external collection write
obeying the §4.4 upsert contract), `index_one` is idempotent: for a product
id with unchanged text, the first call produces a state with exactly one
vector for the id and the second call returns that state unchanged.  On the
SQLite backend `index_one` always fails (the collection handle is None) and
stores nothing. -/
theorem index_one_idempotent_chroma (eng : Engine) (pid : ℤ) (p : Product)
    (hc : eng.useChroma = true) (hp : lookupTarget eng.products pid = some p) :
    ∃ e1 : Engine, add_product_embedding eng pid = .ok e1 ∧
      add_product_embedding e1 pid = .ok e1 ∧
      countId e1.chromaIndex pid = 1 := by
  refine ⟨indexedOnce eng pid p, ?_, ?_, ?_⟩
  · unfold add_product_embedding
    rw [hp]
    simp [hc, indexedOnce]
  · have hprod : (indexedOnce eng pid p).products = eng.products := rfl
    have hchr : (indexedOnce eng pid p).useChroma = eng.useChroma := rfl
    unfold add_product_embedding
    rw [hprod, hp, hchr]
    simp only [hc, if_true]
    have : upsertEntry (indexedOnce eng pid p).chromaIndex
        (pid, (indexedOnce eng pid p).encode (embedText p)) =
        (indexedOnce eng pid p).chromaIndex := upsertEntry_idem eng.chromaIndex _
    simp [indexedOnce, upsertEntry_idem, hc]
  · exact countId_upsertEntry eng.chromaIndex pid (eng.encode (embedText p))

/-- Witness for `index_one_idempotent_chroma` on a one-product
chroma-backend engine. -/
theorem index_one_idempotent_chroma_witness :
    ∃ e1 : Engine, add_product_embedding engChromaOne 1 = .ok e1 ∧
      add_product_embedding e1 1 = .ok e1 ∧ countId e1.chromaIndex 1 = 1 :=
  index_one_idempotent_chroma engChromaOne 1 ⟨1, "A", some "x", "general", 10, 4, "amazon"⟩
    rfl rfl

/-! ### Claim C8 -/

/-- C8 counterexample: on the ChromaDB backend a rebuild whose delete step
succeeded and whose add step then failed leaves the index empty — neither
the prior contents (one stale vector) nor the full replacement (one vector
for the catalog product), so a partially-applied state is observable. -/
theorem reindex_chroma_partial_failure :
    (generate_embeddings_for_all_products engStale ⟨false, true, false⟩).1.chromaIndex = [] ∧
    (generate_embeddings_for_all_products engStale ⟨false, true, false⟩).2 = some .unavailable ∧
    engStale.chromaIndex ≠ ([] : List (ℤ × List ℚ)) ∧
    upsertAll [] (reindexEntries engStale) ≠ ([] : List (ℤ × List ℚ)) :=
  ⟨rfl, rfl, List.cons_ne_nil _ _, List.cons_ne_nil _ _⟩

/-- C8 amended: the SQLite-backend rebuild is atomic — it runs inside a
single transaction committed at the end, so on failure the prior table is
untouched and on success the table is either untouched (no products with a
description) or fully replaced by one vector per such product.  The
ChromaDB-backend rebuild is not atomic: a failing add after a successful
delete (of a nonempty work set) leaves the index empty. -/
theorem reindex_atomicity :
    (∀ (eng : Engine) (ops : ReindexOps), eng.useChroma = false →
      ((generate_embeddings_for_all_products eng ops).2.isSome →
        (generate_embeddings_for_all_products eng ops).1 = eng) ∧
      ((generate_embeddings_for_all_products eng ops).2 = none →
        (generate_embeddings_for_all_products eng ops).1.sqliteEmb = eng.sqliteEmb ∨
        (generate_embeddings_for_all_products eng ops).1.sqliteEmb =
          upsertAll [] (reindexEntries eng))) ∧
    ∀ (eng : Engine) (ops : ReindexOps), eng.useChroma = true →
      ops.deleteFails = false → ops.addFails = true →
      (generate_embeddings_for_all_products eng ops).1.chromaIndex = [] ∨
      (generate_embeddings_for_all_products eng ops).1 = eng := by
  constructor
  · intro eng ops hc
    simp only [generate_embeddings_for_all_products]
    split_ifs <;> simp_all
  · intro eng ops hc hdel hadd
    simp only [generate_embeddings_for_all_products]
    split_ifs <;> simp_all

/-- Witness for `reindex_atomicity`: the SQLite part on a failing rebuild
over `engSqliteOne`, and the ChromaDB part on `engStale`. -/
theorem reindex_atomicity_witness :
    (((generate_embeddings_for_all_products engSqliteOne ⟨false, false, true⟩).2.isSome →
        (generate_embeddings_for_all_products engSqliteOne ⟨false, false, true⟩).1 =
          engSqliteOne) ∧
      ((generate_embeddings_for_all_products engSqliteOne ⟨false, false, true⟩).2 = none →
        (generate_embeddings_for_all_products engSqliteOne ⟨false, false, true⟩).1.sqliteEmb =
          engSqliteOne.sqliteEmb ∨
        (generate_embeddings_for_all_products engSqliteOne ⟨false, false, true⟩).1.sqliteEmb =
          upsertAll [] (reindexEntries engSqliteOne))) ∧
    ((generate_embeddings_for_all_products engStale ⟨false, true, false⟩).1.chromaIndex = [] ∨
      (generate_embeddings_for_all_products engStale ⟨false, true, false⟩).1 = engStale) :=
  ⟨reindex_atomicity.1 engSqliteOne ⟨false, false, true⟩ rfl,
   reindex_atomicity.2 engStale ⟨false, true, false⟩ rfl rfl rfl⟩

/-! ### Claim C7: similarity bounds -/

theorem sqNorm_nonneg (v : List ℚ) : 0 ≤ sqNorm v := by
  unfold sqNorm
  apply List.sum_nonneg
  intro x hx
  obtain ⟨y, _, rfl⟩ := List.mem_map.mp hx
  exact mul_self_nonneg y

theorem cauchy_step (x y d A B : ℚ) (h : d ^ 2 ≤ A * B) (hA : 0 ≤ A) (hB : 0 ≤ B) :
    (x * y + d) ^ 2 ≤ (x * x + A) * (y * y + B) := by
  rcases eq_or_lt_of_le hA with heq | hpos
  · have hAB : A * B = 0 := by rw [← heq]; ring
    have hd : d = 0 := by nlinarith [sq_nonneg d]
    subst hd
    rw [← heq]
    nlinarith [mul_nonneg (mul_self_nonneg x) hB]
  · nlinarith [sq_nonneg (x * d - A * y),
      mul_nonneg (add_nonneg (mul_self_nonneg x) hA) (sub_nonneg.mpr h), hpos]

theorem dotQ_sq_le (a : List ℚ) : ∀ b : List ℚ, dotQ a b ^ 2 ≤ sqNorm a * sqNorm b := by
  induction a with
  | nil =>
    intro b
    simp [dotQ, sqNorm]
  | cons x as ih =>
    intro b
    cases b with
    | nil =>
      simp [dotQ, sqNorm]
    | cons y bs =>
      have h := ih bs
      have hA := sqNorm_nonneg as
      have hB := sqNorm_nonneg bs
      have e1 : dotQ (x :: as) (y :: bs) = x * y + dotQ as bs := by simp [dotQ]
      have e2 : sqNorm (x :: as) = x * x + sqNorm as := by simp [sqNorm]
      have e3 : sqNorm (y :: bs) = y * y + sqNorm bs := by simp [sqNorm]
      rw [e1, e2, e3]
      exact cauchy_step x y (dotQ as bs) (sqNorm as) (sqNorm bs) h hA hB

theorem abs_dot_le (a b : List ℚ) : |((dotQ a b : ℚ) : ℝ)| ≤ normR a * normR b := by
  have h : ((dotQ a b : ℚ) : ℝ) ^ 2 ≤ ((sqNorm a : ℚ) : ℝ) * ((sqNorm b : ℚ) : ℝ) := by
    exact_mod_cast dotQ_sq_le a b
  have h2 := Real.abs_le_sqrt h
  unfold normR
  rwa [Real.sqrt_mul (by exact_mod_cast sqNorm_nonneg a)] at h2

theorem cosSim_bounds (a b : List ℚ) (ha : sqNorm a ≠ 0) :
    -1 ≤ cosSim a b ∧ cosSim a b ≤ 1 := by
  have hA0 : (0 : ℝ) < ((sqNorm a : ℚ) : ℝ) :=
    lt_of_le_of_ne (by exact_mod_cast sqNorm_nonneg a) (by exact_mod_cast (Ne.symm ha))
  have hna : 0 < normR a := Real.sqrt_pos.mpr hA0
  have hnb : 0 ≤ normR b := Real.sqrt_nonneg _
  have hden : 0 < normR a * (normR b + 1 / 10 ^ 10) := by
    apply mul_pos hna
    have : (0 : ℝ) < 1 / 10 ^ 10 := by norm_num
    linarith
  have habs : |cosSim a b| ≤ 1 := by
    unfold cosSim
    rw [abs_div, abs_of_pos hden, div_le_one hden]
    calc |((dotQ a b : ℚ) : ℝ)| ≤ normR a * normR b := abs_dot_le a b
    _ ≤ normR a * (normR b + 1 / 10 ^ 10) := by nlinarith [hna]
  exact abs_le.mp habs

theorem sqliteRecs_sim_bounds (products : List Product) (pid : ℤ) (k : ℕ)
    (emb : List (ℤ × List ℚ)) (tvec : List ℚ)
    (hemb : ∀ e ∈ emb, sqNorm e.2 ≠ 0) :
    ∀ r ∈ sqliteRecs products pid k emb tvec,
      -1 ≤ r.similarity_score ∧ r.similarity_score ≤ 1 := by
  intro r hr
  simp only [sqliteRecs] at hr
  obtain ⟨p, hp, hmap⟩ := List.mem_filterMap.mp hr
  cases hf : products.find? (fun row => row.id = p.1) with
  | none =>
    rw [hf] at hmap
    simp at hmap
  | some row =>
    rw [hf] at hmap
    simp only [Option.map, Option.some.injEq] at hmap
    obtain rfl := hmap
    have hp1 : p ∈ sortDescBySim ((sqlitePairs emb tvec).filter (fun q => q.1 ≠ pid)) :=
      (List.take_sublist _ _).subset hp
    have hp2 : p ∈ (sqlitePairs emb tvec).filter (fun q => q.1 ≠ pid) :=
      mem_sortDescBySim.mp hp1
    have hp3 : p ∈ sqlitePairs emb tvec := List.mem_of_mem_filter hp2
    simp only [sqlitePairs] at hp3
    obtain ⟨e, he, rfl⟩ := List.mem_map.mp hp3
    have hb := cosSim_bounds e.2 tvec (hemb e he)
    have hc1 : ((-1 : ℤ) : ℝ) ≤ cosSim e.2 tvec := by push_cast; exact hb.1
    have hc2 : cosSim e.2 tvec ≤ ((1 : ℤ) : ℝ) := by push_cast; exact hb.2
    have hres := pyRound_bounds (cosSim e.2 tvec) (-1) 1 hc1 hc2 4
    constructor
    · have := hres.1
      push_cast at this
      exact this
    · have := hres.2
      push_cast at this
      exact this

theorem chromaLoop_sim_bounds : ∀ (hits : List ChromaHit) (pid : ℤ) (k cnt : ℕ),
    (∀ h ∈ hits, 0 ≤ h.distance) →
    ∀ r ∈ chromaLoop pid k hits cnt, 0 ≤ r.similarity_score ∧ r.similarity_score ≤ 1 := by
  intro hits
  induction hits with
  | nil =>
    intro pid k cnt _ r hr
    simp [chromaLoop] at hr
  | cons h hs ih =>
    intro pid k cnt hd r hr
    have hrest : ∀ x ∈ hs, 0 ≤ x.distance := fun x hx => hd x (List.mem_cons_of_mem _ hx)
    have hbound : (0 : ℝ) ≤ ((pyRound (1 / (1 + h.distance)) 4 : ℚ) : ℝ) ∧
        ((pyRound (1 / (1 + h.distance)) 4 : ℚ) : ℝ) ≤ 1 := by
      have hd0 : (0 : ℚ) ≤ h.distance := hd h (List.mem_cons_self _ _)
      have hpos : (0 : ℚ) < 1 + h.distance := by linarith
      have hs1 : ((0 : ℤ) : ℚ) ≤ 1 / (1 + h.distance) := by positivity
      have hs2 : 1 / (1 + h.distance) ≤ ((1 : ℤ) : ℚ) := by
        push_cast
        rw [div_le_one hpos]
        linarith
      have hq := pyRound_bounds (1 / (1 + h.distance)) 0 1 hs1 hs2 4
      constructor
      · have := hq.1
        push_cast at this
        exact_mod_cast this
      · have := hq.2
        push_cast at this
        exact_mod_cast this
    simp only [chromaLoop] at hr
    by_cases hid : h.id = pid
    · rw [if_pos hid] at hr
      exact ih pid k cnt hrest r hr
    · rw [if_neg hid] at hr
      by_cases hk : k ≤ cnt + 1
      · rw [if_pos hk] at hr
        rw [List.mem_singleton] at hr
        subst hr
        exact hbound
      · rw [if_neg hk] at hr
        rcases List.mem_cons.mp hr with rfl | hr2
        · exact hbound
        · exact ih pid k (cnt + 1) hrest r hr2

/-- C7 amended: an attached similarity score lies in [0, 1] on the
approximate (ChromaDB) backend, given non-negative distances; on the exact
backend it is a rounded cosine similarity and lies in [-1, 1] (given
nonzero-norm stored vectors), and it can actually be negative — cosine
similarity of real embedding vectors is not clamped to [0, 1]. -/
theorem similarity_score_ranges :
    (∀ (pid : ℤ) (k : ℕ) (hits : List ChromaHit),
      (∀ h ∈ hits, 0 ≤ h.distance) →
      ∀ r ∈ chromaLoop pid k hits 0, 0 ≤ r.similarity_score ∧ r.similarity_score ≤ 1) ∧
    ∀ (eng : Engine) (pid : ℤ) (k : ℕ) (recs : List Rec),
      eng.useChroma = false →
      (∀ e ∈ eng.sqliteEmb, sqNorm e.2 ≠ 0) →
      get_recommendations eng pid k = .ok recs →
      ∀ r ∈ recs, -1 ≤ r.similarity_score ∧ r.similarity_score ≤ 1 := by
  constructor
  · intro pid k hits hd
    exact chromaLoop_sim_bounds hits pid k 0 hd
  · intro eng pid k recs hc hemb hok
    unfold get_recommendations at hok
    cases hlt : lookupTarget eng.products pid with
    | none =>
      rw [hlt] at hok
      simp only [Except.ok.injEq] at hok
      subst hok
      intro r hr
      simp at hr
    | some target =>
      rw [hlt] at hok
      simp only [hc, Bool.false_eq_true, if_false] at hok
      by_cases hemp : eng.sqliteEmb.isEmpty
      · rw [if_pos hemp] at hok
        simp only [Except.ok.injEq] at hok
        subst hok
        intro r hr
        simp at hr
      · rw [if_neg hemp] at hok
        simp only [Except.ok.injEq] at hok
        subst hok
        exact sqliteRecs_sim_bounds eng.products pid k eng.sqliteEmb
          (eng.encode (embedText target)) hemb

/-- Witness for `similarity_score_ranges`: one non-self chroma hit with
distance 1, and the empty exact-backend result of `engNoDesc`. -/
theorem similarity_score_ranges_witness :
    (∀ r ∈ chromaLoop 1 5 [⟨3, "N", "c", 5, 4, "p", 1, "doc"⟩] 0,
      0 ≤ r.similarity_score ∧ r.similarity_score ≤ 1) ∧
    ∀ r ∈ ([] : List Rec), -1 ≤ r.similarity_score ∧ r.similarity_score ≤ 1 :=
  ⟨similarity_score_ranges.1 1 5 [⟨3, "N", "c", 5, 4, "p", 1, "doc"⟩]
      (by
        intro h hh
        rw [List.mem_singleton] at hh
        subst hh
        norm_num),
   similarity_score_ranges.2 engNoDesc 1 5 [] rfl
      (by
        intro e he
        simp only [engNoDesc, List.mem_singleton] at he
        subst he
        norm_num [sqNorm])
      rfl⟩

/-- C7 counterexample: on the exact backend, a stored vector opposite to
the query vector produces a recommendation whose attached similarity score
is −1, outside [0, 1]. -/
theorem exact_backend_similarity_negative :
    get_recommendations engOpp 1 5 = Except.ok [recNeg] ∧ recNeg.similarity_score < 0 := by
  have h1 : normR [1] = 1 := by
    unfold normR sqNorm
    norm_num
  have h2 : normR [-1] = 1 := by
    unfold normR sqNorm
    norm_num
  have hcs : cosSim [-1] [1] = -1 / (1 + 1 / 10 ^ 10) := by
    unfold cosSim dotQ
    rw [h1, h2]
    norm_num
  have hfl : ⌊(-1 / (1 + 1 / 10 ^ 10) * 10 ^ 4 : ℝ)⌋ = -10000 := by
    rw [Int.floor_eq_iff]
    constructor
    · push_cast
      norm_num
    · push_cast
      norm_num
  have hrhe : roundHalfEven (-1 / (1 + 1 / 10 ^ 10) * 10 ^ 4 : ℝ) = -10000 := by
    simp only [roundHalfEven, hfl]
    norm_num
  have hpr : pyRound (cosSim [-1] [1]) 4 = (-1 : ℝ) := by
    unfold pyRound
    rw [hcs, hrhe]
    norm_num
  constructor
  · simp [get_recommendations, engOpp, lookupTarget, hasDescription, embedText, sqliteRecs,
      sqlitePairs, sortDescBySim, insertDescBySim, List.find?, List.filter, List.isEmpty,
      previewOf, hpr, recNeg]
    decide
  · norm_num [recNeg]

/-! ### Claim C10 -/

/-- C10 (confirmed): in the exact in-memory backend, when the top-ranked
neighbor id (2) has a stored embedding but no product row any more,
`get_recommendations` silently skips it without backfilling from the
remaining ranked candidates: on `engGone`, `recommend(1, 1)` returns zero
recommendations although two non-self embeddings exist in the index. -/
theorem exact_backend_skips_missing_rows :
    get_recommendations engGone 1 1 = Except.ok [] ∧
    1 ≤ (engGone.sqliteEmb.filter (fun e => e.1 ≠ (1 : ℤ))).length := by
  constructor
  · simp [get_recommendations, engGone, lookupTarget, hasDescription, embedText, sqliteRecs,
      sqlitePairs, sortDescBySim, insertDescBySim, List.find?, List.filter, List.isEmpty,
      previewOf]
  · simp [engGone, List.filter]

end FindShop
